import Mathlib

/-!
Verification of the coordination layer of the AI-Desktop-Assistant tray
application (src/AI-Desktop-Assistant.py) against its natural-language
specification.  The Python source is shallowly embedded: the LLM client
functions `call_llm_streaming` and `call_llm`, the worker closures of
`_process_translate` and `_ocr_translate_callback`, the hotkey registration
and event loop of `HotkeyManager`, and the clipboard-triggered entry points
become Lean functions over explicit environments.  External effects are
explicit parameters: `json.loads` is a `String → Option Json` argument, the
HTTP transport outcome is a datum (`HttpOutcome`), the run's cancellation
flag is a function from read-index to `Bool` (one value per successive read
of `progress_dialog.cancelled`), and `GLib.idle_add` is FIFO enqueueing into
the GTK main-loop queue (GLib dispatches idle callbacks of equal priority in
the order they were added).  Exception *messages* produced by Python
(`str(e)`) are abstracted: each transport datum carries the message its
exception would render, and the two message literals for a malformed body
stand in for Python's exact wording; no theorem depends on those texts.
-/

/-- JSON values as produced by Python's `json.loads`.  Object fields keep
insertion order; a duplicated key resolves to its last occurrence, as in a
Python dict built by the standard JSON decoder. -/
inductive Json where
  | null
  | bool (b : Bool)
  | num (n : Int)
  | str (s : String)
  | arr (elems : List Json)
  | obj (fields : List (String × Json))

/-- Python dict lookup over the insertion-ordered field list: the last
binding of a key wins. -/
def lookupLast (fields : List (String × Json)) (k : String) : Option Json :=
  fields.foldl (fun acc p => if p.1 = k then some p.2 else acc) none

/-- `chunk[k]` / `chunk.get(k)` on a JSON value: a field of an object,
nothing otherwise. -/
def Json.get? (j : Json) (k : String) : Option Json :=
  match j with
  | .obj fs => lookupLast fs k
  | _ => none

/-- Python truthiness of a decoded JSON value. -/
def Json.truthy : Json → Bool
  | .null => false
  | .bool b => b
  | .num n => n != 0
  | .str s => s != ""
  | .arr xs => !xs.isEmpty
  | .obj fs => !fs.isEmpty

/-- Python `len(v)` on a decoded JSON value; `none` models the `TypeError`
raised on numbers, booleans and `None`. -/
def pyLen : Json → Option Nat
  | .str s => some s.length
  | .arr xs => some xs.length
  | .obj fs => some fs.length
  | _ => none

/-- Python `s.startswith(p)`, via the character list so that it reduces in
the kernel. -/
def pyStartsWith (s p : String) : Bool :=
  p.data.isPrefixOf s.data

/-- Python character slicing `s[n:]`. -/
def pyDrop (s : String) (n : Nat) : String :=
  String.mk (s.data.drop n)

/-- Python `s.strip()`: whitespace removed from both ends. -/
def pyStrip (s : String) : String :=
  String.mk (((s.data.dropWhile Char.isWhitespace).reverse.dropWhile
    Char.isWhitespace).reverse)

/-- Containment of one character list in another. -/
def listInfix : List Char → List Char → Bool
  | n, [] => n.isEmpty
  | n, c :: h => n.isPrefixOf (c :: h) || listInfix n h

/-- Python substring containment `needle in hay` for strings. -/
def strMem (needle hay : String) : Bool :=
  listInfix needle.data hay.data

/-- Effect of one decoded streaming chunk on `result_text` in
`call_llm_streaming` (source lines 1031-1038): `skip` contributes nothing,
`append s` extends the accumulator, `raise` models a Python exception
(`TypeError`/`KeyError`/`AttributeError`) escaping the per-chunk code into
the function's outer `except Exception` handler. -/
inductive StepResult where
  | skip
  | append (s : String)
  | raise
deriving DecidableEq

/-- Embeds the chunk-handling block of `call_llm_streaming`:
`if 'choices' in chunk and len(chunk['choices']) > 0:` then
`delta = chunk['choices'][0].get('delta', {})`,
`content = delta.get('content', '')`, `if content: result_text += content`.
Every Python dynamic-type failure along the way becomes `raise`. -/
def processChunk : Json → StepResult
  | Json.obj fs =>
    match lookupLast fs "choices" with
    | none => StepResult.skip
    | some v =>
      match pyLen v with
      | none => StepResult.raise
      | some 0 => StepResult.skip
      | some (_ + 1) =>
        match v with
        | Json.arr (Json.obj cf :: _) =>
          match (lookupLast cf "delta").getD (Json.obj []) with
          | Json.obj df =>
            match (lookupLast df "content").getD (Json.str "") with
            | Json.str s => if s = "" then StepResult.skip else StepResult.append s
            | c => if c.truthy then StepResult.raise else StepResult.skip
          | _ => StepResult.raise
        | _ => StepResult.raise
  | Json.arr xs =>
    if xs.any (fun j => match j with | Json.str s => s == "choices" | _ => false) then
      StepResult.raise
    else StepResult.skip
  | Json.str s => if strMem "choices" s then StepResult.raise else StepResult.skip
  | _ => StepResult.raise

/-- Result of the `for line in response.iter_lines()` loop of
`call_llm_streaming`: the loop returned `None` after observing the
cancellation flag, finished with the accumulated text (`[DONE]` or stream
end), or let a Python exception escape to the outer handler. -/
inductive LoopOut where
  | cancelled
  | finished (acc : String)
  | raised
deriving DecidableEq

/-- The streaming line loop of `call_llm_streaming` (source lines 1020-1040).
`flag k` is the value of `progress_dialog.cancelled` at the k-th read; the
returned `Nat` is the read index after the loop.  Mirrors the source: the
flag is checked once per delivered line before the line is examined;
non-`data: ` lines and empty keep-alive lines are ignored; the loop breaks
at a `data: ` frame whose stripped payload is `[DONE]`; a frame that fails
to decode (`json.JSONDecodeError`) is skipped. -/
def runLines (decode : String → Option Json) (flag : Nat → Bool) :
    List String → Nat → String → LoopOut × Nat
  | [], k, acc => (LoopOut.finished acc, k)
  | l :: ls, k, acc =>
    if flag k then (LoopOut.cancelled, k + 1)
    else if l = "" then runLines decode flag ls (k + 1) acc
    else if pyStartsWith l "data: " then
      if pyStrip (pyDrop l 6) = "[DONE]" then (LoopOut.finished acc, k + 1)
      else
        match decode (pyDrop l 6) with
        | none => runLines decode flag ls (k + 1) acc
        | some chunk =>
          match processChunk chunk with
          | StepResult.skip => runLines decode flag ls (k + 1) acc
          | StepResult.append s => runLines decode flag ls (k + 1) (acc ++ s)
          | StepResult.raise => (LoopOut.raised, k + 1)
    else runLines decode flag ls (k + 1) acc

/-- Outcome of `requests.post` as seen by the caller: a timeout exception,
another exception, or a response with its final status code, the message
`raise_for_status()` would raise for it, and the delivered body (full text
for a buffered call, the sequence of lines for a streaming call). -/
inductive HttpOutcome (β : Type) where
  | timeout (msg : String)
  | exc (msg : String)
  | resp (status : Nat) (statusMsg : String) (body : β)

/-- Embeds `call_llm_streaming` (source lines 996-1047).  The POST is issued
unconditionally — there is no cancellation check before the request — so
every invocation performs exactly one network call.  `requests`'
`raise_for_status()` raises `HTTPError` exactly for status codes 400-599.
Returns the result (`none` models Python's `None`) and the flag read index
after the call. -/
def call_llm_streaming (decode : String → Option Json) (flag : Nat → Bool)
    (k0 : Nat) : HttpOutcome (List String) → Option String × Nat
  | HttpOutcome.timeout _ => (some "Error: Connection timeout", k0)
  | HttpOutcome.exc m => (some ("Error: " ++ m), k0)
  | HttpOutcome.resp s m lines =>
    if 400 ≤ s ∧ s ≤ 599 then (some ("Error: " ++ m), k0)
    else
      match runLines decode flag lines k0 "" with
      | (LoopOut.cancelled, k) => (none, k)
      | (LoopOut.finished acc, k) =>
        (some (if acc = "" then "No response received" else acc), k)
      | (LoopOut.raised, k) => (some "Error: TypeError", k)

/-- The result-text path of `call_llm`:
`result['choices'][0]['message']['content']`.  `none` collapses the
`KeyError`/`TypeError`/`IndexError` cases, all of which the source converts
to an error string. -/
def bufferedExtract (j : Json) : Option Json :=
  match j.get? "choices" with
  | some (Json.arr (c :: _)) =>
    match c.get? "message" with
    | some m => m.get? "content"
    | none => none
  | _ => none

/-- Python `str()`-ing of a content value when it is interpolated
downstream; only the string case is ever exercised by the theorems. -/
def Json.pyStr : Json → String
  | .str s => s
  | _ => "<non-string content>"

/-- Embeds `call_llm` (source lines 1049-1080), the buffered client.  Every
failure — timeout, any other transport exception, an HTTP error status
(400-599, the statuses `raise_for_status()` rejects), an unparsable body,
or a body without the expected `choices[0].message.content` shape — is
caught by the single `except Exception` handler and returned as an
`"Error: ..."` string; nothing propagates to the caller. -/
def call_llm (decode : String → Option Json) : HttpOutcome String → String
  | HttpOutcome.timeout m => "Error: " ++ m
  | HttpOutcome.exc m => "Error: " ++ m
  | HttpOutcome.resp s m body =>
    if 400 ≤ s ∧ s ≤ 599 then "Error: " ++ m
    else
      match decode body with
      | none => "Error: response body is not valid JSON"
      | some j =>
        match bufferedExtract j with
        | some v => v.pyStr
        | none => "Error: malformed response shape"

/-- One network invocation issued by a worker, recording the call mode, the
model, and the text instruction of the outgoing message (the image part of
an OCR/vision request rides alongside the text and is not recorded). -/
structure NetCall where
  stream : Bool
  model : String
  prompt : String
deriving DecidableEq

/-- Terminal outcome of a worker run for the presentation context:
`delivered` means `GLib.idle_add(self.show_result, title, text)` was posted;
`cancelled` means the progress dialog was destroyed with nothing delivered
(the silent teardown of a cancelled run); `stalled` is the fall-through in
which neither branch of the final `if`/`elif` fires (reachable only when
the flag reads `true` mid-stream and `false` afterwards). -/
inductive RunOutcome where
  | delivered (title text : String)
  | cancelled
  | stalled
deriving DecidableEq

/-- Python truthiness of the `result` value after a streaming call. -/
def optTruthy : Option String → Bool
  | some s => s != ""
  | none => false

/-- Environment of one `_process_translate` worker run: the JSON decoder,
the successive values read from `progress_dialog.cancelled`, the transport
outcome of the single streaming call, and the configuration snapshot
(`default_language`, active text model, confirmed clipboard text). -/
structure TranslateEnv where
  decode : String → Option Json
  flag : Nat → Bool
  streamHttp : HttpOutcome (List String)
  lang : String
  model : String
  text : String

/-- Embeds the worker closure `process()` of `_process_translate` (source
lines 1098-1115).  The streaming call is issued immediately — no
cancellation check precedes it — then the flag decides delivery:
`if not progress_dialog.cancelled and result:` delivers,
`elif progress_dialog.cancelled:` tears down silently. -/
def translateProcess (env : TranslateEnv) : RunOutcome × List NetCall :=
  let prompt := "Translate the following text to " ++ env.lang ++
    ". Respond in Markdown format. Only provide the translation, no explanations:\n\n" ++
    env.text
  let c : NetCall := { stream := true, model := env.model, prompt := prompt }
  let r := call_llm_streaming env.decode env.flag 0 env.streamHttp
  if env.flag r.2 = false ∧ optTruthy r.1 then
    (RunOutcome.delivered "Translation" (r.1.getD ""), [c])
  else if env.flag (r.2 + 1) then (RunOutcome.cancelled, [c])
  else (RunOutcome.stalled, [c])

/-- The OCR instruction of `_ocr_translate_callback` (source line 1185). -/
def ocrPromptText : String :=
  "Extract all text from this image. Only provide the extracted text, no explanations."

/-- The stage-2 instruction of `_ocr_translate_callback` (source line 1198):
the previous stage's output is interpolated verbatim. -/
def translateStagePrompt (lang t : String) : String :=
  "Translate the following text to " ++ lang ++
    ". Respond in Markdown format. Only provide the translation:\n\n" ++ t

/-- Environment of one `_ocr_translate_callback` worker run: decoder, flag
reads, the transport outcomes of the buffered OCR call and of the streaming
translate call, and the configuration snapshot. -/
structure OcrTranslateEnv where
  decode : String → Option Json
  flag : Nat → Bool
  ocrHttp : HttpOutcome String
  transHttp : HttpOutcome (List String)
  lang : String
  ocrModel : String
  textModel : String

/-- Embeds the worker closure `process()` of `_ocr_translate_callback`
(source lines 1175-1207).  Flag reads in source order: index 0 before the
OCR call, index 1 after it, indices from 2 inside the streaming loop, then
the delivery checks.  The OCR stage's string result — including an
`"Error: ..."` result — is threaded into the stage-2 prompt unconditionally
once the index-1 check passes. -/
def ocr_translate_process (env : OcrTranslateEnv) : RunOutcome × List NetCall :=
  if env.flag 0 then (RunOutcome.cancelled, [])
  else
    let ocrResult := call_llm env.decode env.ocrHttp
    let c1 : NetCall := { stream := false, model := env.ocrModel, prompt := ocrPromptText }
    if env.flag 1 then (RunOutcome.cancelled, [c1])
    else
      let c2 : NetCall :=
        { stream := true, model := env.textModel,
          prompt := translateStagePrompt env.lang ocrResult }
      let r := call_llm_streaming env.decode env.flag 2 env.transHttp
      if env.flag r.2 = false ∧ optTruthy r.1 then
        (RunOutcome.delivered "OCR + Translation" (r.1.getD ""), [c1, c2])
      else if env.flag (r.2 + 1) then (RunOutcome.cancelled, [c1, c2])
      else (RunOutcome.stalled, [c1, c2])

/-- X11 constants used by `HotkeyManager` (python-xlib's `X` module). -/
def xKeyPress : Nat := 2

/-- `X.ShiftMask`. -/
def shiftMask : Nat := 1

/-- `X.ControlMask`. -/
def controlMask : Nat := 4

/-- `X.Mod1Mask`. -/
def mod1Mask : Nat := 8

/-- `X.Mod4Mask`. -/
def mod4Mask : Nat := 64

/-- The modifier mask applied to `event.state` in `_event_loop` (source
line 363): `X.ControlMask | X.ShiftMask | X.Mod1Mask | X.Mod4Mask`. -/
def eventModMask : Nat := controlMask ||| shiftMask ||| mod1Mask ||| mod4Mask

/-- An X key event as consumed by `_event_loop`: `type`, `detail`
(the keycode) and `state` (the modifier bitmask). -/
structure XKeyEvent where
  type : Nat
  detail : Nat
  state : Nat
deriving DecidableEq

/-- The static chord table `HotkeyManager.HOTKEYS` (source lines 305-313):
`(modifiers, keysym, callback_name)` with keysyms `XK_1 = 0x31` … `XK_7`. -/
def HOTKEYS : List (Nat × Nat × String) :=
  [ (controlMask ||| shiftMask, 0x31, "translate_text"),
    (controlMask ||| shiftMask, 0x32, "explain_text"),
    (controlMask ||| shiftMask, 0x33, "ocr_translate"),
    (controlMask ||| shiftMask, 0x34, "explain_image"),
    (controlMask ||| shiftMask, 0x35, "ocr_explain"),
    (controlMask ||| shiftMask, 0x36, "query_image"),
    (controlMask ||| shiftMask, 0x37, "query_text") ]

/-- Observable state built by `setup_hotkeys`: the sequence of
`root.grab_key(keycode, modifiers, ...)` calls issued, and the insertion
sequence of `self.hotkey_map[(keycode, modifiers)] = callback_name`. -/
structure HotkeyState where
  grabs : List (Nat × Nat)
  entries : List ((Nat × Nat) × String)
deriving DecidableEq

/-- Embeds `HotkeyManager.setup_hotkeys` (source lines 322-341),
parameterized by the display's `keysym_to_keycode` mapping.  For every
listed binding a grab is attempted and the dict entry is assigned; there is
no duplicate detection of any kind. -/
def setup_hotkeys (k2c : Nat → Nat) (hotkeys : List (Nat × Nat × String)) :
    HotkeyState :=
  hotkeys.foldl
    (fun st b =>
      { grabs := st.grabs ++ [(k2c b.2.1, b.1)],
        entries := st.entries ++ [((k2c b.2.1, b.1), b.2.2)] })
    { grabs := [], entries := [] }

/-- Python dict `get` over the insertion sequence: the last assignment to a
key wins (`self.hotkey_map.get((keycode, modifiers))`). -/
def lookupEntries (entries : List ((Nat × Nat) × String)) (key : Nat × Nat) :
    Option String :=
  entries.foldl (fun acc p => if p.1 = key then some p.2 else acc) none

/-- Handling of one X event by `_event_loop` (source lines 361-371): only a
`KeyPress` is examined; its state is masked, the `(keycode, modifiers)` pair
looked up, and the bound callback name dispatched when `getattr` finds it
(`attrExists` models `getattr(self.callback_object, name, None)`). -/
def handleEvent (entries : List ((Nat × Nat) × String)) (attrExists : String → Bool)
    (e : XKeyEvent) : Option String :=
  if e.type = xKeyPress then
    match lookupEntries entries (e.detail, e.state &&& eventModMask) with
    | some name => if attrExists name then some name else none
    | none => none
  else none

/-- The detection loop of `HotkeyManager._event_loop` over a finite event
history: each dispatched callback is appended to the GTK main-loop queue by
`GLib.idle_add` (FIFO for equal-priority idle sources), so `q` is the queue
in the order the presentation context will observe. -/
def eventLoop (entries : List ((Nat × Nat) × String)) (attrExists : String → Bool) :
    List XKeyEvent → List String → List String
  | [], q => q
  | e :: es, q =>
    match handleEvent entries attrExists e with
    | some cb => eventLoop entries attrExists es (q ++ [cb])
    | none => eventLoop entries attrExists es q

/-- The observable clipboard states distinguished by `get_clipboard_text`:
textual content, an image, a file (URI list), or nothing. -/
inductive Clipboard where
  | text (s : String)
  | image
  | file
  | empty
deriving DecidableEq

/-- Embeds `get_clipboard_text` (source lines 979-994): a pair of the text
(when present) and the content-kind tag the source returns. -/
def get_clipboard_text : Clipboard → Option String × String
  | Clipboard.text s => (some s, "text")
  | Clipboard.image => (none, "image")
  | Clipboard.file => (none, "file")
  | Clipboard.empty => (none, "empty")

/-- Immediate result of a clipboard-based trigger: a desktop notification
followed by `return` (no dialog, no pipeline run, no network call), or a
confirmation/query dialog opened over the clipboard text — only the
latter can later start a worker run. -/
inductive TriggerResult where
  | notify (msg : String)
  | confirmDialog (kind : String) (text : String)
deriving DecidableEq

/-- Whether a trigger outcome opens the dialog that can start a run. -/
def startsRun : TriggerResult → Bool
  | TriggerResult.notify _ => false
  | TriggerResult.confirmDialog _ _ => true

/-- Embeds `translate_text` (source lines 1082-1096), the Ctrl+Shift+1
trigger, up to the point where a dialog is shown or the operation aborts. -/
def translate_text (clip : Clipboard) : TriggerResult :=
  match get_clipboard_text clip with
  | (text, ctype) =>
    if ctype ≠ "text" then
      if ctype = "image" then TriggerResult.notify "Clipboard contains an image, not text"
      else if ctype = "file" then TriggerResult.notify "Clipboard contains a file, not text"
      else TriggerResult.notify "Clipboard does not contain text"
    else TriggerResult.confirmDialog "Translation" (text.getD "")

/-- Embeds `explain_text` (source lines 1117-1131), the Ctrl+Shift+2
trigger. -/
def explain_text (clip : Clipboard) : TriggerResult :=
  match get_clipboard_text clip with
  | (text, ctype) =>
    if ctype ≠ "text" then
      if ctype = "image" then TriggerResult.notify "Clipboard contains an image, not text"
      else if ctype = "file" then TriggerResult.notify "Clipboard contains a file, not text"
      else TriggerResult.notify "Clipboard does not contain text"
    else TriggerResult.confirmDialog "Explanation" (text.getD "")

/-- Embeds `query_text` (source lines 1394-1407), the Ctrl+Shift+7 trigger;
the dialog kind stands for `TextQueryDialog`. -/
def query_text (clip : Clipboard) : TriggerResult :=
  match get_clipboard_text clip with
  | (text, ctype) =>
    if ctype ≠ "text" then
      if ctype = "image" then TriggerResult.notify "Clipboard contains an image, not text"
      else if ctype = "file" then TriggerResult.notify "Clipboard contains a file, not text"
      else TriggerResult.notify "Clipboard does not contain text"
    else TriggerResult.confirmDialog "TextQuery" (text.getD "")

/-- The notification text `translate_text`/`explain_text`/`query_text`
produce for each non-text clipboard kind. -/
def wrongKindMsg : Clipboard → String
  | Clipboard.image => "Clipboard contains an image, not text"
  | Clipboard.file => "Clipboard contains a file, not text"
  | _ => "Clipboard does not contain text"

/-- Concatenation of a list of strings in order. -/
def concatAll : List String → String
  | [] => ""
  | s :: ss => s ++ concatAll ss

/-- A line that the streaming loop examines as a frame: non-empty and
carrying the `data: ` prefix. -/
def isDataLine (l : String) : Bool :=
  (l != "") && pyStartsWith l "data: "

/-- A frame whose stripped payload is the literal end marker `[DONE]`. -/
def doneLine (l : String) : Bool :=
  isDataLine l && (pyStrip (pyDrop l 6) == "[DONE]")

/-- The `choices[0].delta.content` field of a decoded chunk, when that path
exists and holds a string — the spec's description of a well-formed
streaming frame's contribution. -/
def deltaContent (chunk : Json) : Option String :=
  match chunk.get? "choices" with
  | some (Json.arr (c :: _)) =>
    match c.get? "delta" with
    | some d =>
      match d.get? "content" with
      | some (Json.str s) => some s
      | _ => none
    | _ => none
  | _ => none

/-- Contribution of one raw line per the spec's reading: the
`choices[0].delta.content` of a decodable `data: ` frame that is not the
end marker. -/
def specLineContent (decode : String → Option Json) (l : String) : Option String :=
  if isDataLine l && !doneLine l then (decode (pyDrop l 6)).bind deltaContent
  else none

/-- The spec's predicted accumulated result: concatenation, in arrival
order, of the content fields of the frames preceding the first `[DONE]`. -/
def specConcat (decode : String → Option Json) (ls : List String) : String :=
  concatAll ((ls.takeWhile (fun l => !doneLine l)).filterMap (specLineContent decode))

/-- A decoded chunk that does not make the Python loop raise. -/
def chunkTame (c : Json) : Bool :=
  match processChunk c with
  | StepResult.raise => false
  | _ => true

/-- A raw line whose handling cannot raise: any non-frame line, any
undecodable frame, and any frame decoding to a chunk whose dynamic types
fit the code's expectations. -/
def tameLine (decode : String → Option Json) (l : String) : Bool :=
  if isDataLine l && !doneLine l then
    match decode (pyDrop l 6) with
    | some c => chunkTame c
    | none => true
  else true

/-- A buffered invocation that `call_llm` classifies as a failure: a
timeout, another exception, a status `raise_for_status()` rejects, or a
malformed payload — a body `json.loads` cannot parse, or one without the
expected `choices[0].message.content` shape. -/
def bufferedFailure (decode : String → Option Json) (h : HttpOutcome String) : Bool :=
  match h with
  | HttpOutcome.timeout _ => true
  | HttpOutcome.exc _ => true
  | HttpOutcome.resp s _ b =>
    decide (400 ≤ s ∧ s ≤ 599) ||
      (match decode b with
       | none => true
       | some j =>
         match bufferedExtract j with
         | none => true
         | some _ => false)

/-- A translate run whose cancellation flag reads `true` from the start:
the user pressed Cancel before the worker reached its only stage. -/
def c1CexEnv : TranslateEnv :=
  { decode := fun _ => none, flag := fun _ => true,
    streamHttp := HttpOutcome.resp 200 "" [], lang := "English", model := "m",
    text := "hello" }

/-- An OCR+translate run cancelled before its first stage. -/
def c1OcrEnv : OcrTranslateEnv :=
  { decode := fun _ => none, flag := fun _ => true,
    ocrHttp := HttpOutcome.timeout "t", transHttp := HttpOutcome.timeout "t",
    lang := "English", ocrModel := "om", textModel := "tm" }

/-- A translate run whose flag is set by the time its result is available. -/
def c2TEnv : TranslateEnv :=
  { decode := fun _ => none, flag := fun _ => true,
    streamHttp := HttpOutcome.timeout "t", lang := "L", model := "m", text := "x" }

/-- An OCR+translate run whose flag turns `true` at the read just after the
OCR stage's result arrives (read index 1). -/
def c2OEnv : OcrTranslateEnv :=
  { decode := fun _ => none, flag := fun k => decide (1 ≤ k),
    ocrHttp := HttpOutcome.timeout "t", transHttp := HttpOutcome.timeout "t",
    lang := "L", ocrModel := "om", textModel := "tm" }

/-- The decoded form of a streaming chunk carrying delta content `T:ok`. -/
def c3Chunk : Json :=
  Json.obj [("choices",
    Json.arr [Json.obj [("delta", Json.obj [("content", Json.str "T:ok")])]])]

/-- A concrete stand-in for `json.loads` mapping one real JSON text to its
decoded value. -/
def c3Decode : String → Option Json := fun p =>
  if p = "\x7b\"choices\":[\x7b\"delta\":\x7b\"content\":\"T:ok\"\x7d\x7d]\x7d" then some c3Chunk
  else none

/-- An OCR+translate run that is never cancelled, whose OCR stage fails with
HTTP 500 and whose translate stage streams successfully. -/
def c3CexEnv : OcrTranslateEnv :=
  { decode := c3Decode, flag := fun _ => false,
    ocrHttp := HttpOutcome.resp 500 "500 Server Error: Internal Server Error for url" "",
    transHttp := HttpOutcome.resp 200 ""
      ["data: \x7b\"choices\":[\x7b\"delta\":\x7b\"content\":\"T:ok\"\x7d\x7d]\x7d", "data: [DONE]"],
    lang := "English", ocrModel := "ocr-m", textModel := "text-m" }

/-- An OCR+translate run that is never cancelled, whose OCR stage returns
HTTP 200 with a body that is not valid JSON (a malformed payload). -/
def c3MalEnv : OcrTranslateEnv :=
  { decode := c3Decode, flag := fun _ => false,
    ocrHttp := HttpOutcome.resp 200 "OK" "not json",
    transHttp := HttpOutcome.timeout "t",
    lang := "English", ocrModel := "ocr-m", textModel := "text-m" }

/-- Decoded chunk carrying delta content `ab`. -/
def c4Chunk1 : Json :=
  Json.obj [("choices",
    Json.arr [Json.obj [("delta", Json.obj [("content", Json.str "ab")])]])]

/-- Decoded chunk carrying delta content `cd`. -/
def c4Chunk2 : Json :=
  Json.obj [("choices",
    Json.arr [Json.obj [("delta", Json.obj [("content", Json.str "cd")])]])]

/-- Concrete `json.loads` stand-in for the spec's streaming example: the two
example frame payloads decode, everything else is invalid JSON. -/
def c4Decode : String → Option Json := fun p =>
  if p = "\x7b\"choices\":[\x7b\"delta\":\x7b\"content\":\"ab\"\x7d\x7d]\x7d" then some c4Chunk1
  else if p = "\x7b\"choices\":[\x7b\"delta\":\x7b\"content\":\"cd\"\x7d\x7d]\x7d" then some c4Chunk2
  else none

/-- The spec's streaming example plus an empty keep-alive line, a non-frame
line, an invalid-JSON frame, and a frame arriving after `[DONE]`. -/
def c4Lines : List String :=
  [ "data: \x7b\"choices\":[\x7b\"delta\":\x7b\"content\":\"ab\"\x7d\x7d]\x7d",
    "",
    ": keep-alive",
    "data: not-json",
    "data: \x7b\"choices\":[\x7b\"delta\":\x7b\"content\":\"cd\"\x7d\x7d]\x7d",
    "data: [DONE]",
    "data: \x7b\"choices\":[\x7b\"delta\":\x7b\"content\":\"zz\"\x7d\x7d]\x7d" ]

/-- A decodable but schema-violating chunk: `choices` holds a number, so
`len(chunk['choices'])` raises `TypeError` in Python, which the inner
`except json.JSONDecodeError` does not catch. -/
def c4BadChunk : Json := Json.obj [("choices", Json.num 5)]

/-- Concrete `json.loads` stand-in decoding the schema-violating payload
and one well-formed payload; everything else is invalid JSON. -/
def c4BadDecode : String → Option Json := fun p =>
  if p = "\x7b\"choices\":5\x7d" then some c4BadChunk
  else if p = "\x7b\"choices\":[\x7b\"delta\":\x7b\"content\":\"ab\"\x7d\x7d]\x7d" then some c4Chunk1
  else none

/-- A stream whose first frame is decodable but schema-violating, followed
by a well-formed frame and the end marker. -/
def c4BadLines : List String :=
  [ "data: \x7b\"choices\":5\x7d",
    "data: \x7b\"choices\":[\x7b\"delta\":\x7b\"content\":\"ab\"\x7d\x7d]\x7d",
    "data: [DONE]" ]

/-- A well-formed buffered response body. -/
def c6Body : String := "\x7b\"choices\":[\x7b\"message\":\x7b\"content\":\"hi\"\x7d\x7d]\x7d"

/-- The decoded form of `c6Body`. -/
def c6Chunk : Json :=
  Json.obj [("choices",
    Json.arr [Json.obj [("message", Json.obj [("content", Json.str "hi")])]])]

/-- Concrete `json.loads` stand-in decoding exactly `c6Body`. -/
def c6Decode : String → Option Json := fun b =>
  if b = c6Body then some c6Chunk else none

theorem str_append_ne_empty (p m : String) (hp : p ≠ "") : p ++ m ≠ "" := by
  intro h
  have hd := congrArg String.data h
  rw [String.data_append] at hd
  rcases List.append_eq_nil.mp hd with ⟨h1, _⟩
  apply hp
  cases p
  exact congrArg String.mk (by simpa using h1)

theorem content_of_append (c : Json) (s : String)
    (h : processChunk c = StepResult.append s) :
    deltaContent c = some s ∧ s ≠ "" := by
  cases c with
  | obj fs =>
    rcases hch : lookupLast fs "choices" with _ | v
    · simp [processChunk, hch] at h
    · cases v with
      | arr elems =>
        cases elems with
        | nil => simp [processChunk, hch, pyLen] at h
        | cons c0 tl =>
          cases c0 with
          | obj cf =>
            rcases hld : lookupLast cf "delta" with _ | dv
            · have h0 : lookupLast ([] : List (String × Json)) "content" = none := rfl
              simp [processChunk, hch, pyLen, hld, h0] at h
            · cases dv with
              | obj df =>
                rcases hlc : lookupLast df "content" with _ | cv
                · simp [processChunk, hch, pyLen, hld, hlc] at h
                · cases cv with
                  | str s2 =>
                    by_cases hs : s2 = ""
                    · simp [processChunk, hch, pyLen, hld, hlc, hs] at h
                    · simp [processChunk, hch, pyLen, hld, hlc, hs] at h
                      subst h
                      simp [deltaContent, Json.get?, hch, hld, hlc]
                      exact hs
                  | null => simp [processChunk, hch, pyLen, hld, hlc, Json.truthy] at h
                  | bool b =>
                    cases b <;>
                      simp [processChunk, hch, pyLen, hld, hlc, Json.truthy] at h
                  | num n =>
                    by_cases hn : n = 0 <;>
                      simp [processChunk, hch, pyLen, hld, hlc, Json.truthy, hn] at h
                  | arr ys =>
                    cases ys <;>
                      simp [processChunk, hch, pyLen, hld, hlc, Json.truthy] at h
                  | obj gs =>
                    cases gs <;>
                      simp [processChunk, hch, pyLen, hld, hlc, Json.truthy] at h
              | null => simp [processChunk, hch, pyLen, hld] at h
              | bool b => simp [processChunk, hch, pyLen, hld] at h
              | num n => simp [processChunk, hch, pyLen, hld] at h
              | str s2 => simp [processChunk, hch, pyLen, hld] at h
              | arr ys => simp [processChunk, hch, pyLen, hld] at h
          | null => simp [processChunk, hch, pyLen] at h
          | bool b => simp [processChunk, hch, pyLen] at h
          | num n => simp [processChunk, hch, pyLen] at h
          | str s2 => simp [processChunk, hch, pyLen] at h
          | arr ys => simp [processChunk, hch, pyLen] at h
      | str s2 =>
        rcases hsz : s2.length with _ | n <;> simp [processChunk, hch, pyLen, hsz] at h
      | obj fs2 =>
        cases fs2 <;> simp [processChunk, hch, pyLen] at h
      | null => simp [processChunk, hch, pyLen] at h
      | bool b => simp [processChunk, hch, pyLen] at h
      | num n => simp [processChunk, hch, pyLen] at h
  | arr xs =>
    simp only [processChunk] at h
    split at h <;> simp at h
  | str s2 =>
    simp only [processChunk] at h
    split at h <;> simp at h
  | null => simp [processChunk] at h
  | bool b => simp [processChunk] at h
  | num n => simp [processChunk] at h

theorem content_of_skip (c : Json) (h : processChunk c = StepResult.skip) :
    (deltaContent c).getD "" = "" := by
  cases c with
  | obj fs =>
    rcases hch : lookupLast fs "choices" with _ | v
    · simp [deltaContent, Json.get?, hch]
    · cases v with
      | arr elems =>
        cases elems with
        | nil => simp [deltaContent, Json.get?, hch]
        | cons c0 tl =>
          cases c0 with
          | obj cf =>
            rcases hld : lookupLast cf "delta" with _ | dv
            · simp [deltaContent, Json.get?, hch, hld]
            · cases dv with
              | obj df =>
                rcases hlc : lookupLast df "content" with _ | cv
                · simp [deltaContent, Json.get?, hch, hld, hlc]
                · cases cv with
                  | str s2 =>
                    by_cases hs : s2 = ""
                    · simp [deltaContent, Json.get?, hch, hld, hlc, hs]
                    · simp [processChunk, hch, pyLen, hld, hlc, hs] at h
                  | null => simp [deltaContent, Json.get?, hch, hld, hlc]
                  | bool b => simp [deltaContent, Json.get?, hch, hld, hlc]
                  | num n => simp [deltaContent, Json.get?, hch, hld, hlc]
                  | arr ys => simp [deltaContent, Json.get?, hch, hld, hlc]
                  | obj gs => simp [deltaContent, Json.get?, hch, hld, hlc]
              | null => simp [processChunk, hch, pyLen, hld] at h
              | bool b => simp [processChunk, hch, pyLen, hld] at h
              | num n => simp [processChunk, hch, pyLen, hld] at h
              | str s2 => simp [processChunk, hch, pyLen, hld] at h
              | arr ys => simp [processChunk, hch, pyLen, hld] at h
          | null => simp [processChunk, hch, pyLen] at h
          | bool b => simp [processChunk, hch, pyLen] at h
          | num n => simp [processChunk, hch, pyLen] at h
          | str s2 => simp [processChunk, hch, pyLen] at h
          | arr ys => simp [processChunk, hch, pyLen] at h
      | str s2 => simp [deltaContent, Json.get?, hch]
      | obj fs2 => simp [deltaContent, Json.get?, hch]
      | null => simp [processChunk, hch, pyLen] at h
      | bool b => simp [processChunk, hch, pyLen] at h
      | num n => simp [processChunk, hch, pyLen] at h
  | arr xs => simp [deltaContent, Json.get?]
  | str s2 => simp [deltaContent, Json.get?]
  | null => simp [processChunk] at h
  | bool b => simp [processChunk] at h
  | num n => simp [processChunk] at h

theorem runLines_start_le (d : String → Option Json) (f : Nat → Bool) :
    ∀ (ls : List String) (k : Nat) (acc : String), k ≤ (runLines d f ls k acc).2 := by
  intro ls
  induction ls with
  | nil => intro k acc; simp [runLines]
  | cons l ls ih =>
    intro k acc
    by_cases hf : f k
    · simp [runLines, hf]
    · by_cases he : l = ""
      · simp only [runLines, hf, if_false, he, if_true, Bool.false_eq_true]
        exact le_trans (Nat.le_succ k) (ih (k + 1) acc)
      · by_cases hw : pyStartsWith l "data: "
        · by_cases hdn : pyStrip (pyDrop l 6) = "[DONE]"
          · simp [runLines, hf, he, hw, hdn]
          · rcases hdec : d (pyDrop l 6) with _ | chunk
            · simp only [runLines, hf, he, hw, hdn, hdec, Bool.false_eq_true, if_false,
                if_true, ite_false, ite_true]
              exact le_trans (Nat.le_succ k) (ih (k + 1) acc)
            · rcases hpc : processChunk chunk with _ | s | _ <;>
                simp only [runLines, hf, he, hw, hdn, hdec, hpc, Bool.false_eq_true,
                  if_false, if_true, ite_false, ite_true]
              · exact le_trans (Nat.le_succ k) (ih (k + 1) acc)
              · exact le_trans (Nat.le_succ k) (ih (k + 1) (acc ++ s))
              · exact Nat.le_succ k
        · simp only [runLines, hf, he, hw, Bool.false_eq_true, if_false, if_true,
            ite_false, ite_true]
          exact le_trans (Nat.le_succ k) (ih (k + 1) acc)

theorem exists_flag_shift (f : Nat → Bool) (k b : Nat) (hfk : ¬f k = true) :
    (∃ j, k + 1 ≤ j ∧ j < b ∧ f j = true) ↔ (∃ j, k ≤ j ∧ j < b ∧ f j = true) := by
  constructor
  · rintro ⟨j, h1, h2, h3⟩
    exact ⟨j, by omega, h2, h3⟩
  · rintro ⟨j, h1, h2, h3⟩
    refine ⟨j, ?_, h2, h3⟩
    rcases Nat.eq_or_lt_of_le h1 with h | h
    · exact absurd (h ▸ h3) hfk
    · omega

theorem runLines_cancel_iff (d : String → Option Json) (f : Nat → Bool) :
    ∀ (ls : List String) (k : Nat) (acc : String),
      (runLines d f ls k acc).1 = LoopOut.cancelled ↔
        ∃ j, k ≤ j ∧ j < (runLines d f ls k acc).2 ∧ f j = true := by
  intro ls
  induction ls with
  | nil =>
    intro k acc
    simp only [runLines]
    constructor
    · intro h; exact absurd h (by simp)
    · rintro ⟨j, h1, h2, _⟩; omega
  | cons l ls ih =>
    intro k acc
    by_cases hf : f k
    · constructor
      · intro _
        have h2 : (runLines d f (l :: ls) k acc).2 = k + 1 := by simp [runLines, hf]
        exact ⟨k, Nat.le_refl k, h2 ▸ Nat.lt_succ_self k, hf⟩
      · intro _
        simp [runLines, hf]
    · have hstep : ∀ acc', (runLines d f ls (k + 1) acc').1 = LoopOut.cancelled ↔
          ∃ j, k ≤ j ∧ j < (runLines d f ls (k + 1) acc').2 ∧ f j = true := by
        intro acc'
        exact (ih (k + 1) acc').trans (exists_flag_shift f k _ hf)
      have hterm : ∀ o : LoopOut, o ≠ LoopOut.cancelled →
          (o = LoopOut.cancelled ↔ ∃ j, k ≤ j ∧ j < k + 1 ∧ f j = true) := by
        intro o ho
        apply iff_of_false ho
        rintro ⟨j, h1, h2, h3⟩
        have : j = k := by omega
        exact hf (this ▸ h3)
      by_cases he : l = ""
      · simpa only [runLines, hf, he, Bool.false_eq_true, if_false, if_true,
          ite_true, ite_false] using hstep acc
      · by_cases hw : pyStartsWith l "data: "
        · by_cases hdn : pyStrip (pyDrop l 6) = "[DONE]"
          · simp only [runLines, hf, he, hw, hdn, Bool.false_eq_true, if_false,
              if_true, ite_true, ite_false]
            exact hterm _ (by simp)
          · rcases hdec : d (pyDrop l 6) with _ | chunk
            · simpa only [runLines, hf, he, hw, hdn, hdec, Bool.false_eq_true,
                if_false, if_true, ite_true, ite_false] using hstep acc
            · rcases hpc : processChunk chunk with _ | s | _
              · simpa only [runLines, hf, he, hw, hdn, hdec, hpc, Bool.false_eq_true,
                  if_false, if_true, ite_true, ite_false] using hstep acc
              · simpa only [runLines, hf, he, hw, hdn, hdec, hpc, Bool.false_eq_true,
                  if_false, if_true, ite_true, ite_false] using hstep (acc ++ s)
              · simp only [runLines, hf, he, hw, hdn, hdec, hpc, Bool.false_eq_true,
                  if_false, if_true, ite_true, ite_false]
                exact hterm _ (by simp)
        · simpa only [runLines, hf, he, hw, Bool.false_eq_true, if_false, if_true,
            ite_true, ite_false] using hstep acc

theorem specConcat_cons (d : String → Option Json) (l : String) (ls : List String) :
    specConcat d (l :: ls) =
      if doneLine l then ""
      else
        match specLineContent d l with
        | some s => s ++ specConcat d ls
        | none => specConcat d ls := by
  by_cases hdn : doneLine l
  · simp [specConcat, hdn, List.takeWhile, concatAll]
  · rcases hc : specLineContent d l with _ | s <;>
      simp [specConcat, hdn, hc, List.takeWhile, concatAll]

theorem runLines_finished_eq (d : String → Option Json) (f : Nat → Bool)
    (hf : ∀ j, f j = false) :
    ∀ ls : List String, (∀ l ∈ ls, tameLine d l = true) →
      ∀ (k : Nat) (acc : String),
        (runLines d f ls k acc).1 = LoopOut.finished (acc ++ specConcat d ls) := by
  intro ls
  induction ls with
  | nil =>
    intro _ k acc
    simp [runLines, specConcat, concatAll, String.append_empty]
  | cons l ls ih =>
    intro htame k acc
    have hfk : ¬f k = true := by simp [hf k]
    have htl : ∀ x ∈ ls, tameLine d x = true := fun x hx =>
      htame x (List.mem_cons_of_mem l hx)
    rw [specConcat_cons]
    by_cases he : l = ""
    · have hdl : doneLine l = false := by subst he; rfl
      have hsl : specLineContent d l = none := by subst he; rfl
      simp only [hdl, if_false, hsl, Bool.false_eq_true]
      simp only [runLines, hfk, he, if_false, if_true, ite_true, ite_false,
        Bool.false_eq_true]
      exact ih htl (k + 1) acc
    · by_cases hw : pyStartsWith l "data: "
      · have hdat : isDataLine l = true := by
          simp [isDataLine, Bool.and_eq_true, bne_iff_ne, he, hw]
        by_cases hdn : pyStrip (pyDrop l 6) = "[DONE]"
        · have hdl : doneLine l = true := by simp [doneLine, hdat, hdn]
          simp only [hdl, if_true]
          simp only [runLines, hfk, he, hw, hdn, if_false, if_true, ite_true,
            ite_false, Bool.false_eq_true]
          rw [String.append_empty]
        · have hdl : doneLine l = false := by simp [doneLine, hdat, hdn]
          have hsl : specLineContent d l = (d (pyDrop l 6)).bind deltaContent := by
            simp [specLineContent, hdat, hdl]
          simp only [hdl, if_false, hsl, Bool.false_eq_true]
          rcases hdec : d (pyDrop l 6) with _ | chunk
          · simp only [runLines, hfk, he, hw, hdn, hdec, if_false, if_true,
              ite_true, ite_false, Bool.false_eq_true, Option.bind]
            exact ih htl (k + 1) acc
          · have htm : chunkTame chunk = true := by
              have := htame l (List.mem_cons_self l ls)
              simpa [tameLine, hdat, hdl, hdec] using this
            rcases hpc : processChunk chunk with _ | s | _
            · have hdc : (deltaContent chunk).getD "" = "" := content_of_skip chunk hpc
              simp only [runLines, hfk, he, hw, hdn, hdec, hpc, if_false, if_true,
                ite_true, ite_false, Bool.false_eq_true, Option.bind]
              rcases hdc2 : deltaContent chunk with _ | x
              · simpa [hdc2] using ih htl (k + 1) acc
              · have hx : x = "" := by simpa [hdc2] using hdc
                subst hx
                simpa [hdc2, String.empty_append] using ih htl (k + 1) acc
            · rcases content_of_append chunk s hpc with ⟨hdc2, _⟩
              simp only [runLines, hfk, he, hw, hdn, hdec, hpc, if_false, if_true,
                ite_true, ite_false, Bool.false_eq_true, Option.bind, hdc2]
              rw [← String.append_assoc]
              exact ih htl (k + 1) (acc ++ s)
            · rw [chunkTame, hpc] at htm
              exact absurd htm (by simp)
      · have hdl : doneLine l = false := by simp [doneLine, isDataLine, hw]
        have hsl : specLineContent d l = none := by
          simp [specLineContent, isDataLine, hw]
        simp only [hdl, if_false, hsl, Bool.false_eq_true]
        simp only [runLines, hfk, he, hw, if_false, if_true, ite_true, ite_false,
          Bool.false_eq_true]
        exact ih htl (k + 1) acc

theorem runLines_not_cancel (d : String → Option Json) (f : Nat → Bool)
    (ls : List String) (k : Nat) (acc : String)
    (h : (runLines d f ls k acc).1 ≠ LoopOut.cancelled) :
    ¬∃ j, k ≤ j ∧ j < (runLines d f ls k acc).2 ∧ f j = true := fun hex =>
  h ((runLines_cancel_iff d f ls k acc).mpr hex)

theorem eventLoop_go (entries : List ((Nat × Nat) × String))
    (attrExists : String → Bool) :
    ∀ (es : List XKeyEvent) (q : List String),
      eventLoop entries attrExists es q =
        q ++ es.filterMap (handleEvent entries attrExists) := by
  intro es
  induction es with
  | nil => intro q; simp [eventLoop]
  | cons e es ih =>
    intro q
    rcases hh : handleEvent entries attrExists e with _ | cb
    · simp [eventLoop, hh, ih q]
    · simp only [eventLoop, hh]
      rw [ih (q ++ [cb])]
      simp [List.filterMap_cons, hh]

theorem filterMap_replicate_some (g : XKeyEvent → Option String) (e : XKeyEvent)
    (a : String) (hg : g e = some a) :
    ∀ n, (List.replicate n e).filterMap g = List.replicate n a := by
  intro n
  induction n with
  | zero => simp
  | succ n ih => simp [List.replicate_succ, List.filterMap_cons, hg, ih]

theorem setup_hotkeys_eq (k2c : Nat → Nat) (hk : List (Nat × Nat × String)) :
    setup_hotkeys k2c hk =
      { grabs := hk.map (fun b => (k2c b.2.1, b.1)),
        entries := hk.map (fun b => ((k2c b.2.1, b.1), b.2.2)) } := by
  have key : ∀ (l : List (Nat × Nat × String)) (st : HotkeyState),
      List.foldl
        (fun st b =>
          { grabs := st.grabs ++ [(k2c b.2.1, b.1)],
            entries := st.entries ++ [((k2c b.2.1, b.1), b.2.2)] }) st l =
      { grabs := st.grabs ++ l.map (fun b => (k2c b.2.1, b.1)),
        entries := st.entries ++ l.map (fun b => ((k2c b.2.1, b.1), b.2.2)) } := by
    intro l
    induction l with
    | nil => intro st; simp
    | cons b l ih =>
      intro st
      simp only [List.foldl_cons, List.map_cons]
      rw [ih]
      simp
  unfold setup_hotkeys
  rw [key]
  simp

theorem lookupEntries_append_last (es : List ((Nat × Nat) × String))
    (key : Nat × Nat) (v : String) :
    lookupEntries (es ++ [(key, v)]) key = some v := by
  simp [lookupEntries, List.foldl_append]

theorem runLines_raise_of_prefix (d : String → Option Json) (f : Nat → Bool)
    (hf : ∀ j, f j = false) (l : String) (c : Json)
    (hdat : isDataLine l = true) (hdone : doneLine l = false)
    (hdec : d (pyDrop l 6) = some c) (hpc : processChunk c = StepResult.raise) :
    ∀ pre : List String, (∀ x ∈ pre, tameLine d x = true) →
      (∀ x ∈ pre, doneLine x = false) →
      ∀ (post : List String) (k : Nat) (acc : String),
        (runLines d f (pre ++ l :: post) k acc).1 = LoopOut.raised := by
  have hne : ¬l = "" := by
    intro h
    rw [h] at hdat
    exact absurd hdat (by decide)
  have hw : pyStartsWith l "data: " = true := by
    have h2 := hdat
    simp only [isDataLine, Bool.and_eq_true] at h2
    exact h2.2
  have hdn : ¬pyStrip (pyDrop l 6) = "[DONE]" := by
    intro h
    simp [doneLine, hdat, h] at hdone
  intro pre
  induction pre with
  | nil =>
    intro _ _ post k acc
    have hfk : ¬f k = true := by simp [hf k]
    simp [runLines, hfk, hne, hw, hdn, hdec, hpc]
  | cons p pre ih =>
    intro htame hdones post k acc
    have hfk : ¬f k = true := by simp [hf k]
    have hpt : tameLine d p = true := htame p (List.mem_cons_self p pre)
    have hpd : doneLine p = false := hdones p (List.mem_cons_self p pre)
    have htame2 : ∀ x ∈ pre, tameLine d x = true := fun x hx =>
      htame x (List.mem_cons_of_mem p hx)
    have hdones2 : ∀ x ∈ pre, doneLine x = false := fun x hx =>
      hdones x (List.mem_cons_of_mem p hx)
    by_cases he : p = ""
    · simp only [List.cons_append, runLines, hfk, he, Bool.false_eq_true, if_false,
        if_true, ite_true, ite_false]
      exact ih htame2 hdones2 post (k + 1) acc
    · by_cases hw2 : pyStartsWith p "data: "
      · have hpdat : isDataLine p = true := by
          simp [isDataLine, Bool.and_eq_true, bne_iff_ne, he, hw2]
        have hdn2 : ¬pyStrip (pyDrop p 6) = "[DONE]" := by
          intro h
          simp [doneLine, hpdat, h] at hpd
        rcases hd : d (pyDrop p 6) with _ | chunk
        · simp only [List.cons_append, runLines, hfk, he, hw2, hdn2, hd,
            Bool.false_eq_true, if_false, if_true, ite_true, ite_false]
          exact ih htame2 hdones2 post (k + 1) acc
        · have htm : chunkTame chunk = true := by
            simpa [tameLine, hpdat, hpd, hd] using hpt
          rcases hpc2 : processChunk chunk with _ | s2 | _
          · simp only [List.cons_append, runLines, hfk, he, hw2, hdn2, hd, hpc2,
              Bool.false_eq_true, if_false, if_true, ite_true, ite_false]
            exact ih htame2 hdones2 post (k + 1) acc
          · simp only [List.cons_append, runLines, hfk, he, hw2, hdn2, hd, hpc2,
              Bool.false_eq_true, if_false, if_true, ite_true, ite_false]
            exact ih htame2 hdones2 post (k + 1) (acc ++ s2)
          · rw [chunkTame, hpc2] at htm
            exact absurd htm (by simp)
      · simp only [List.cons_append, runLines, hfk, he, hw2, Bool.false_eq_true,
          if_false, if_true, ite_true, ite_false]
        exact ih htame2 hdones2 post (k + 1) acc

/-- Claim C4, counterexample to the claim as stated, at two inputs: a
stream of just `data: [DONE]` has an empty content concatenation yet
returns the sentinel `"No response received"` rather than that (empty)
concatenation; and a stream whose first frame is valid JSON but
schema-violating (`choices` holds a number) is not merely skipped — the
invocation aborts with an `"Error: ..."` string instead of returning the
`"ab"` contributed by the following well-formed frame. -/
theorem c4_counterexample :
    ((call_llm_streaming (fun _ => none) (fun _ => false) 0
        (HttpOutcome.resp 200 "" ["data: [DONE]"])).1 = some "No response received" ∧
      specConcat (fun _ => none) ["data: [DONE]"] = "") ∧
    ((call_llm_streaming c4BadDecode (fun _ => false) 0
        (HttpOutcome.resp 200 "" c4BadLines)).1 = some "Error: TypeError" ∧
      specConcat c4BadDecode c4BadLines = "ab") := by
  exact ⟨⟨by decide, by decide⟩, ⟨by decide, by decide⟩⟩

/-- Claim C4 (amended): for a streaming response on which no cancellation
is observed, the invocation returns the concatenation, in arrival order,
of the `choices[0].delta.content` fields of the decodable,
schema-conforming `data: ` frames preceding the first `[DONE]` frame —
frames after `[DONE]` contribute nothing, and a frame that is not valid
JSON is skipped without aborting — except that an empty concatenation is
replaced by the sentinel `"No response received"`; a frame that decodes to
a schema-violating chunk, however, is not skipped: its `TypeError` escapes
the inner `except json.JSONDecodeError` handler and the whole invocation
aborts with an `"Error: ..."` string. -/
theorem c4_streaming_concat_amended :
    (∀ (decode : String → Option Json) (flag : Nat → Bool) (k0 s : Nat)
        (m : String) (lines : List String),
      ¬(400 ≤ s ∧ s ≤ 599) → (∀ j, flag j = false) →
      (∀ l ∈ lines, tameLine decode l = true) →
      (call_llm_streaming decode flag k0 (HttpOutcome.resp s m lines)).1 =
        some (if specConcat decode lines = "" then "No response received"
              else specConcat decode lines)) ∧
    (∀ (decode : String → Option Json) (flag : Nat → Bool) (k0 s : Nat)
        (m : String) (pre post : List String) (l : String) (c : Json),
      ¬(400 ≤ s ∧ s ≤ 599) → (∀ j, flag j = false) →
      (∀ x ∈ pre, tameLine decode x = true) → (∀ x ∈ pre, doneLine x = false) →
      isDataLine l = true → doneLine l = false →
      decode (pyDrop l 6) = some c → processChunk c = StepResult.raise →
      (call_llm_streaming decode flag k0
          (HttpOutcome.resp s m (pre ++ l :: post))).1 = some "Error: TypeError") := by
  constructor
  · intro decode flag k0 s m lines hs hflag htame
    have hrun := runLines_finished_eq decode flag hflag lines htame k0 ""
    rw [String.empty_append] at hrun
    simp only [call_llm_streaming, hs, if_false]
    rcases hR : runLines decode flag lines k0 "" with ⟨out, k⟩
    rw [hR] at hrun
    simp only at hrun
    subst hrun
    simp
  · intro decode flag k0 s m pre post l c hs hflag htame hdones hdat hdone hdec hpc
    have hrun := runLines_raise_of_prefix decode flag hflag l c hdat hdone hdec hpc
      pre htame hdones post k0 ""
    simp only [call_llm_streaming, hs, if_false]
    rcases hR : runLines decode flag (pre ++ l :: post) k0 "" with ⟨out, k⟩
    rw [hR] at hrun
    simp only at hrun
    subst hrun
    simp

/-- Witness for C4 (amended) at the spec's own example — the result is
`"abcd"` — and at a stream whose tame invalid-JSON frame is followed by a
schema-violating frame, which aborts with the error string. -/
theorem c4_streaming_concat_amended_witness :
    (call_llm_streaming c4Decode (fun _ => false) 0
        (HttpOutcome.resp 200 "" c4Lines)).1 = some "abcd" ∧
    (call_llm_streaming c4BadDecode (fun _ => false) 0
        (HttpOutcome.resp 200 ""
          ["data: not-json", "data: \x7b\"choices\":5\x7d", "data: [DONE]"])).1 =
      some "Error: TypeError" := by
  constructor
  · have h := c4_streaming_concat_amended.1 c4Decode (fun _ => false) 0 200 "" c4Lines
      (by decide) (fun _ => rfl) (by decide)
    exact h.trans (by decide)
  · have h := c4_streaming_concat_amended.2 c4BadDecode (fun _ => false) 0 200 ""
      ["data: not-json"] ["data: [DONE]"] "data: \x7b\"choices\":5\x7d" c4BadChunk
      (by decide) (fun _ => rfl) (by decide) (by decide) (by decide) (by decide)
      rfl (by decide)
    simpa using h

/-- Claim C10: a streaming invocation never returns the empty string — an
empty accumulation becomes the sentinel `"No response received"` — and it
returns `None` exactly when the cancellation flag was observed `true` at
one of the reads the loop performed. -/
theorem c10_streaming_result_shape (decode : String → Option Json)
    (flag : Nat → Bool) (k0 : Nat) (h : HttpOutcome (List String)) :
    (∀ t, (call_llm_streaming decode flag k0 h).1 = some t → t ≠ "") ∧
    ((call_llm_streaming decode flag k0 h).1 = none ↔
      ∃ j, k0 ≤ j ∧ j < (call_llm_streaming decode flag k0 h).2 ∧ flag j = true) ∧
    (∀ s m lines, h = HttpOutcome.resp s m lines → ¬(400 ≤ s ∧ s ≤ 599) →
      (∀ j, flag j = false) → (∀ l ∈ lines, tameLine decode l = true) →
      specConcat decode lines = "" →
      (call_llm_streaming decode flag k0 h).1 = some "No response received") := by
  cases h with
  | timeout m =>
    refine ⟨?_, ?_, ?_⟩
    · intro t ht
      simp only [call_llm_streaming] at ht
      cases ht
      decide
    · simp only [call_llm_streaming]
      constructor
      · intro ht; exact absurd ht (by simp)
      · rintro ⟨j, hj1, hj2, _⟩; omega
    · intro s' m' lines' heq
      exact absurd heq (by simp)
  | exc m =>
    refine ⟨?_, ?_, ?_⟩
    · intro t ht
      simp only [call_llm_streaming] at ht
      cases ht
      exact str_append_ne_empty "Error: " m (by decide)
    · simp only [call_llm_streaming]
      constructor
      · intro ht; exact absurd ht (by simp)
      · rintro ⟨j, hj1, hj2, _⟩; omega
    · intro s' m' lines' heq
      exact absurd heq (by simp)
  | resp s m lines =>
    by_cases herr : 400 ≤ s ∧ s ≤ 599
    · refine ⟨?_, ?_, ?_⟩
      · intro t ht
        simp only [call_llm_streaming, herr, and_self, if_true] at ht
        cases ht
        exact str_append_ne_empty "Error: " m (by decide)
      · simp only [call_llm_streaming, herr, and_self, if_true]
        constructor
        · intro ht; exact absurd ht (by simp)
        · rintro ⟨j, hj1, hj2, _⟩; omega
      · intro s' m' lines' heq herr'
        cases heq
        exact absurd herr herr'
    · rcases hR : runLines decode flag lines k0 "" with ⟨out, k⟩
      cases out with
      | cancelled =>
        refine ⟨?_, ?_, ?_⟩
        · intro t ht
          simp only [call_llm_streaming, herr, if_false, hR] at ht
          exact absurd ht (by simp)
        · simp only [call_llm_streaming, herr, if_false, hR]
          have hex := (runLines_cancel_iff decode flag lines k0 "").mp (by rw [hR])
          rw [hR] at hex
          exact iff_of_true trivial (by simpa using hex)
        · intro s' m' lines' heq herr' hfl htame _
          cases heq
          have hfin := runLines_finished_eq decode flag hfl lines htame k0 ""
          rw [hR] at hfin
          exact absurd hfin (by simp)
      | finished acc =>
        refine ⟨?_, ?_, ?_⟩
        · intro t ht
          simp only [call_llm_streaming, herr, if_false, hR] at ht
          by_cases hacc : acc = ""
          · rw [if_pos hacc] at ht
            cases ht
            decide
          · rw [if_neg hacc] at ht
            cases ht
            exact hacc
        · simp only [call_llm_streaming, herr, if_false, hR]
          have hnc := runLines_not_cancel decode flag lines k0 "" (by rw [hR]; simp)
          rw [hR] at hnc
          exact iff_of_false (by simp) (by simpa using hnc)
        · intro s' m' lines' heq herr' hfl htame hsc
          cases heq
          have hfin := runLines_finished_eq decode flag hfl lines htame k0 ""
          rw [hR, hsc, String.append_empty] at hfin
          simp only at hfin
          injection hfin with hacc
          subst hacc
          simp [call_llm_streaming, herr, hR]
      | raised =>
        refine ⟨?_, ?_, ?_⟩
        · intro t ht
          simp only [call_llm_streaming, herr, if_false, hR] at ht
          cases ht
          decide
        · simp only [call_llm_streaming, herr, if_false, hR]
          have hnc := runLines_not_cancel decode flag lines k0 "" (by rw [hR]; simp)
          rw [hR] at hnc
          exact iff_of_false (by simp) (by simpa using hnc)
        · intro s' m' lines' heq herr' hfl htame _
          cases heq
          have hfin := runLines_finished_eq decode flag hfl lines htame k0 ""
          rw [hR] at hfin
          exact absurd hfin (by simp)

/-- Witness for C10: with the flag already `true`, a one-line stream yields
`None`, obtained through the theorem's characterization. -/
theorem c10_streaming_result_shape_witness :
    (call_llm_streaming (fun _ => none) (fun _ => true) 0
        (HttpOutcome.resp 200 "" ["data: x"])).1 = none := by
  exact ((c10_streaming_result_shape (fun _ => none) (fun _ => true) 0
    (HttpOutcome.resp 200 "" ["data: x"])).2.1).mpr ⟨0, Nat.le_refl 0, by decide, rfl⟩

/-- Claim C6, counterexample to the claim as stated: `raise_for_status()`
raises only for statuses 400-599, and a final `304 Not Modified` is not a
redirect `requests` follows, so a non-2xx response whose body parses yields
the content `"hi"`, not a classified failure. -/
theorem c6_counterexample :
    call_llm c6Decode (HttpOutcome.resp 304 "Not Modified" c6Body) = "hi" ∧
    ¬(200 ≤ 304 ∧ 304 < 300) ∧
    pyStartsWith "hi" "Error: " = false := by
  exact ⟨by decide, by decide, by decide⟩

/-- Claim C6 (amended): a buffered invocation classifies a transport
timeout, any other transport exception, an HTTP error status 400-599 (the
statuses `raise_for_status()` rejects), an unparsable body, and a body
without the `choices[0].message.content` shape as an `"Error: ..."` string
returned to the caller; no exception propagates (the embedding is a total
function into result strings).  Non-error statuses outside 2xx are *not*
classified as failures. -/
theorem c6_buffered_failure_amended (d : String → Option Json) :
    (∀ m, call_llm d (HttpOutcome.timeout m) = "Error: " ++ m) ∧
    (∀ m, call_llm d (HttpOutcome.exc m) = "Error: " ++ m) ∧
    (∀ s m b, 400 ≤ s → s ≤ 599 → call_llm d (HttpOutcome.resp s m b) = "Error: " ++ m) ∧
    (∀ s m b, ¬(400 ≤ s ∧ s ≤ 599) → d b = none →
      ∃ e, call_llm d (HttpOutcome.resp s m b) = "Error: " ++ e) ∧
    (∀ s m b j, ¬(400 ≤ s ∧ s ≤ 599) → d b = some j → bufferedExtract j = none →
      ∃ e, call_llm d (HttpOutcome.resp s m b) = "Error: " ++ e) := by
  refine ⟨fun m => rfl, fun m => rfl, ?_, ?_, ?_⟩
  · intro s m b h1 h2
    simp [call_llm, h1, h2]
  · intro s m b hs hd
    refine ⟨"response body is not valid JSON", ?_⟩
    simp only [call_llm, hs, if_false, hd]
    decide
  · intro s m b j hs hd hx
    refine ⟨"malformed response shape", ?_⟩
    simp only [call_llm, hs, if_false, hd, hx]
    decide

/-- Witness for C6 (amended): a timeout, a 503 and an unparsable body each
yield an `Error:`-classified string. -/
theorem c6_buffered_failure_amended_witness :
    call_llm c6Decode (HttpOutcome.timeout "Connection timed out") =
      "Error: Connection timed out" ∧
    call_llm c6Decode (HttpOutcome.resp 503 "503 Server Error" c6Body) =
      "Error: 503 Server Error" ∧
    pyStartsWith (call_llm c6Decode (HttpOutcome.resp 200 "OK" "not json"))
      "Error: " = true := by
  refine ⟨?_, ?_, ?_⟩
  · exact ((c6_buffered_failure_amended c6Decode).1 "Connection timed out").trans
      (by decide)
  · exact ((c6_buffered_failure_amended c6Decode).2.2.1 503 "503 Server Error" c6Body
      (by decide) (by decide)).trans (by decide)
  · rcases (c6_buffered_failure_amended c6Decode).2.2.2.1 200 "OK" "not json"
      (by decide) rfl with ⟨e, he⟩
    rw [he]
    simp only [pyStartsWith, String.data_append, List.isPrefixOf_iff_prefix]
    exact List.prefix_append _ _

/-- Claim C1, counterexample to the claim as stated: a translate run whose
cancellation flag is already set before its single stage is invoked still
issues one network call — `_process_translate`'s worker calls
`call_llm_streaming`, which posts the request before any flag check — even
though the run ends cancelled with nothing delivered. -/
theorem c1_counterexample :
    c1CexEnv.flag 0 = true ∧
    (translateProcess c1CexEnv).1 = RunOutcome.cancelled ∧
    (translateProcess c1CexEnv).2.length = 1 := by
  exact ⟨rfl, by decide, by decide⟩

/-- Claim C1 (amended): the multi-stage OCR+translate pipeline checks the
cancellation flag before each stage — set before stage 1 it ends cancelled
with zero network calls, set before stage 2 it ends cancelled after exactly
the one OCR call — but the single-stage streaming operation translate
issues its one network call unconditionally even when the flag is set
throughout; the run still terminates cancelled with nothing delivered. -/
theorem c1_cancel_before_stage_amended :
    (∀ env : OcrTranslateEnv, env.flag 0 = true →
      ocr_translate_process env = (RunOutcome.cancelled, [])) ∧
    (∀ env : OcrTranslateEnv, env.flag 0 = false → env.flag 1 = true →
      (ocr_translate_process env).1 = RunOutcome.cancelled ∧
      (ocr_translate_process env).2.length = 1) ∧
    (∀ env : TranslateEnv, (∀ k, env.flag k = true) →
      (translateProcess env).1 = RunOutcome.cancelled ∧
      (translateProcess env).2.length = 1) := by
  refine ⟨?_, ?_, ?_⟩
  · intro env h
    simp [ocr_translate_process, h]
  · intro env h0 h1
    constructor <;> simp [ocr_translate_process, h0, h1]
  · intro env hall
    have h1 : env.flag ((call_llm_streaming env.decode env.flag 0 env.streamHttp).2) =
        true := hall _
    have h2 : env.flag ((call_llm_streaming env.decode env.flag 0 env.streamHttp).2 + 1) =
        true := hall _
    constructor <;> simp [translateProcess, h1, h2]

/-- Witness for C1 (amended): a pre-cancelled OCR+translate run makes no
call; a translate run cancelled from the start still makes one. -/
theorem c1_cancel_before_stage_amended_witness :
    ocr_translate_process c1OcrEnv = (RunOutcome.cancelled, []) ∧
    (translateProcess c1CexEnv).1 = RunOutcome.cancelled ∧
    (translateProcess c1CexEnv).2.length = 1 := by
  refine ⟨c1_cancel_before_stage_amended.1 c1OcrEnv rfl, ?_⟩
  exact c1_cancel_before_stage_amended.2.2 c1CexEnv (fun _ => rfl)

/-- Claim C2: a stage result that becomes available while the cancellation
flag is set is discarded, never delivered: the delivery check
`if not progress_dialog.cancelled and result:` fails, so `show_result` is
never posted — for `_process_translate`'s streaming result, for the OCR
stage of `_ocr_translate_callback` (whose result is then also not fed to
stage 2), and for that pipeline's streaming result. -/
theorem c2_late_result_discarded :
    (∀ env : TranslateEnv,
      env.flag ((call_llm_streaming env.decode env.flag 0 env.streamHttp).2) = true →
      ∀ t r, (translateProcess env).1 ≠ RunOutcome.delivered t r) ∧
    (∀ env : OcrTranslateEnv, env.flag 0 = false → env.flag 1 = true →
      ocr_translate_process env =
        (RunOutcome.cancelled,
          [{ stream := false, model := env.ocrModel, prompt := ocrPromptText }])) ∧
    (∀ env : OcrTranslateEnv,
      env.flag ((call_llm_streaming env.decode env.flag 2 env.transHttp).2) = true →
      ∀ t r, (ocr_translate_process env).1 ≠ RunOutcome.delivered t r) := by
  refine ⟨?_, ?_, ?_⟩
  · intro env h t r
    simp only [translateProcess, h]
    split
    · next hcond => exact absurd hcond.1 (by simp)
    · split <;> simp
  · intro env h0 h1
    simp [ocr_translate_process, h0, h1]
  · intro env h t r
    simp only [ocr_translate_process]
    split
    · simp
    · split
      · simp
      · simp only [h]
        split
        · next hcond => exact absurd hcond.1 (by simp)
        · split <;> simp

/-- Witness for C2: with the flag set throughout, a translate run delivers
nothing; with the flag turning `true` right after the OCR stage, the
OCR+translate run ends cancelled after only the OCR call. -/
theorem c2_late_result_discarded_witness :
    (translateProcess c2TEnv).1 ≠ RunOutcome.delivered "Translation" "x" ∧
    ocr_translate_process c2OEnv =
      (RunOutcome.cancelled,
        [{ stream := false, model := "om", prompt := ocrPromptText }]) := by
  constructor
  · exact c2_late_result_discarded.1 c2TEnv rfl "Translation" "x"
  · exact (c2_late_result_discarded.2.1 c2OEnv rfl rfl).trans (by decide)

/-- Claim C3, counterexample to the claim as stated: in an OCR+translate
run whose OCR stage fails with HTTP 500, the run does not stop in a failed
state — the second stage is still invoked, the OCR stage's `"Error: ..."`
string is interpolated verbatim into the translate prompt, and the run
completes delivering the streamed result. -/
theorem c3_counterexample :
    call_llm c3CexEnv.decode c3CexEnv.ocrHttp =
      "Error: 500 Server Error: Internal Server Error for url" ∧
    (ocr_translate_process c3CexEnv).2.length = 2 ∧
    (ocr_translate_process c3CexEnv).1 =
      RunOutcome.delivered "OCR + Translation" "T:ok" ∧
    ((ocr_translate_process c3CexEnv).2.map NetCall.prompt).getLast? =
      some ("Translate the following text to English. Respond in Markdown format. Only provide the translation:\n\nError: 500 Server Error: Internal Server Error for url") := by
  refine ⟨by decide, by decide, by decide, by decide⟩

/-- Claim C3 (amended): any classified failure of the OCR stage — a
timeout, another transport exception, an error status 400-599, or a
malformed payload (a body `json.loads` cannot parse, or one without the
expected `choices[0].message.content` shape) — yields an `"Error: ..."`
string as that stage's output; the run is not terminated — as long as
cancellation is not observed at the two pre/post-OCR checks, the second
stage is invoked with the error text threaded verbatim into its prompt. -/
theorem c3_stage_failure_amended (env : OcrTranslateEnv)
    (h0 : env.flag 0 = false) (h1 : env.flag 1 = false)
    (hfail : bufferedFailure env.decode env.ocrHttp = true) :
    ∃ e, call_llm env.decode env.ocrHttp = "Error: " ++ e ∧
      (ocr_translate_process env).2.map NetCall.prompt =
        [ocrPromptText, translateStagePrompt env.lang ("Error: " ++ e)] := by
  obtain ⟨e, he⟩ : ∃ e, call_llm env.decode env.ocrHttp = "Error: " ++ e := by
    cases hoc : env.ocrHttp with
    | timeout m => exact ⟨m, by simp [call_llm]⟩
    | exc m => exact ⟨m, by simp [call_llm]⟩
    | resp s m b =>
      rw [hoc] at hfail
      by_cases hs : 400 ≤ s ∧ s ≤ 599
      · exact ⟨m, by simp [call_llm, hs]⟩
      · rcases hd : env.decode b with _ | j
        · refine ⟨"response body is not valid JSON", ?_⟩
          simp only [call_llm, hs, if_false, hd]
          decide
        · rcases hx : bufferedExtract j with _ | v
          · refine ⟨"malformed response shape", ?_⟩
            simp only [call_llm, hs, if_false, hd, hx]
            decide
          · exfalso
            simp [bufferedFailure, hs, hd, hx] at hfail
  refine ⟨e, he, ?_⟩
  simp only [ocr_translate_process, h0, h1, Bool.false_eq_true, if_false, he]
  split
  · simp
  · split <;> simp

/-- Witness for C3 (amended): applied both to the concrete HTTP-500 run and
to a malformed-payload run (HTTP 200 with a non-JSON body), the pipeline
really issues both calls. -/
theorem c3_stage_failure_amended_witness :
    ((ocr_translate_process c3CexEnv).2.map NetCall.prompt).length = 2 ∧
    ((ocr_translate_process c3MalEnv).2.map NetCall.prompt).length = 2 := by
  constructor
  · rcases c3_stage_failure_amended c3CexEnv rfl rfl (by decide) with ⟨e, _, hmap⟩
    rw [hmap]
    rfl
  · rcases c3_stage_failure_amended c3MalEnv rfl rfl (by decide) with ⟨e, _, hmap⟩
    rw [hmap]
    rfl

/-- Claim C5: the detection loop marshals actions in detection order — for
any event history containing matching chord events `e1` before `e2`, the
queue the presentation context drains holds `e1`'s action strictly before
`e2`'s. -/
theorem c5_dispatch_order (entries : List ((Nat × Nat) × String))
    (attrExists : String → Bool) (pre mid post : List XKeyEvent)
    (e1 e2 : XKeyEvent) (a1 a2 : String)
    (h1 : handleEvent entries attrExists e1 = some a1)
    (h2 : handleEvent entries attrExists e2 = some a2) :
    eventLoop entries attrExists (pre ++ e1 :: (mid ++ e2 :: post)) [] =
      pre.filterMap (handleEvent entries attrExists) ++
        a1 :: (mid.filterMap (handleEvent entries attrExists) ++
          a2 :: post.filterMap (handleEvent entries attrExists)) := by
  rw [eventLoop_go]
  simp [List.filterMap_append, List.filterMap_cons, h1, h2]

/-- Witness for C5: Ctrl+Shift+1 then Ctrl+Shift+2 in immediate succession
are queued as translate then explain. -/
theorem c5_dispatch_order_witness :
    eventLoop (setup_hotkeys id HOTKEYS).entries (fun _ => true)
      [⟨2, 0x31, 5⟩, ⟨2, 0x32, 5⟩] [] = ["translate_text", "explain_text"] := by
  have h := c5_dispatch_order (setup_hotkeys id HOTKEYS).entries (fun _ => true)
    [] [] [] ⟨2, 0x31, 5⟩ ⟨2, 0x32, 5⟩ "translate_text" "explain_text"
    (by decide) (by decide)
  simpa using h

/-- Claim C7, counterexample to the claim as stated: registering a binding
set with two bindings on the same modifier+key pair is not rejected —
`setup_hotkeys` issues a grab for each of the two identical pairs and
silently overwrites the dict entry with the last binding. -/
theorem c7_counterexample :
    (setup_hotkeys id
        [((5 : Nat), (49 : Nat), "translate_text"), (5, 49, "explain_text")]).grabs =
      [(49, 5), (49, 5)] ∧
    lookupEntries
      (setup_hotkeys id
        [((5 : Nat), (49 : Nat), "translate_text"), (5, 49, "explain_text")]).entries
      (49, 5) = some "explain_text" := by
  exact ⟨by decide, by decide⟩

/-- Claim C7 (amended): registration performs no duplicate detection — it
attempts one grab per listed binding (whatever the pairs) and the lookup
map keeps the last binding registered for a pair; the shipped static table
`HOTKEYS` itself has pairwise-distinct modifier+key pairs under any
injective keysym-to-keycode mapping, so the uniqueness invariant holds for
it. -/
theorem c7_duplicate_binding_amended :
    (∀ (k2c : Nat → Nat) (hk : List (Nat × Nat × String)),
      (setup_hotkeys k2c hk).grabs.length = hk.length) ∧
    (∀ (k2c : Nat → Nat) (hk : List (Nat × Nat × String)) (m ks : Nat) (n : String),
      lookupEntries (setup_hotkeys k2c (hk ++ [(m, ks, n)])).entries (k2c ks, m) =
        some n) ∧
    (∀ k2c : Nat → Nat, Function.Injective k2c →
      ((setup_hotkeys k2c HOTKEYS).entries.map Prod.fst).Nodup) := by
  refine ⟨?_, ?_, ?_⟩
  · intro k2c hk
    rw [setup_hotkeys_eq]
    simp
  · intro k2c hk m ks n
    rw [setup_hotkeys_eq]
    simp only [List.map_append, List.map_cons, List.map_nil]
    exact lookupEntries_append_last _ _ _
  · intro k2c hinj
    rw [setup_hotkeys_eq]
    have hinj2 : Function.Injective (fun p : Nat × Nat => (k2c p.1, p.2)) := by
      intro p q hpq
      cases p
      cases q
      simp only [Prod.mk.injEq] at hpq
      exact Prod.ext (hinj hpq.1) hpq.2
    have base : (HOTKEYS.map (fun b : Nat × Nat × String => (b.2.1, b.1))).Nodup := by
      decide
    have := base.map hinj2
    rw [List.map_map] at this
    simpa [List.map_map, Function.comp] using this

/-- Witness for C7 (amended): seven grabs for the seven shipped bindings,
distinct pairs under the identity keycode map, and last-wins overwriting on
a duplicate pair. -/
theorem c7_duplicate_binding_amended_witness :
    (setup_hotkeys id HOTKEYS).grabs.length = 7 ∧
    ((setup_hotkeys id HOTKEYS).entries.map Prod.fst).Nodup ∧
    lookupEntries
      (setup_hotkeys id ([((5 : Nat), (49 : Nat), "a")] ++ [(5, 49, "b")])).entries
      (49, 5) = some "b" := by
  refine ⟨?_, ?_, ?_⟩
  · exact (c7_duplicate_binding_amended.1 id HOTKEYS).trans (by decide)
  · exact c7_duplicate_binding_amended.2.2 id Function.injective_id
  · exact c7_duplicate_binding_amended.2.1 id [((5 : Nat), (49 : Nat), "a")] 5 49 "b"

/-- Claim C8, counterexample to the claim as stated: holding Ctrl+Shift+1 so
that the event source emits an auto-repeat `KeyPress` before the release
produces two queued invocations for one physical press-and-release — the
loop fires on every `KeyPress` event, with no edge or repeat filtering. -/
theorem c8_counterexample :
    eventLoop (setup_hotkeys id HOTKEYS).entries (fun _ => true)
      [⟨2, 0x31, 5⟩, ⟨2, 0x31, 5⟩, ⟨3, 0x31, 5⟩] [] =
      ["translate_text", "translate_text"] ∧
    (eventLoop (setup_hotkeys id HOTKEYS).entries (fun _ => true)
      [⟨2, 0x31, 5⟩, ⟨2, 0x31, 5⟩, ⟨3, 0x31, 5⟩] []).length ≠ 1 := by
  exact ⟨by decide, by decide⟩

/-- Claim C8 (amended): each `KeyPress` event matching a binding yields
exactly one invocation and a `KeyRelease` yields none, so a physical
press-and-release that reaches the loop as a single `KeyPress` plus a
`KeyRelease` yields exactly one invocation — but `n` repeat `KeyPress`
events while held yield `n` invocations; the loop performs no edge
detection. -/
theorem c8_press_edge_amended (entries : List ((Nat × Nat) × String))
    (attrExists : String → Bool) (e r : XKeyEvent) (a : String)
    (he : handleEvent entries attrExists e = some a)
    (hr : r.type ≠ xKeyPress) :
    eventLoop entries attrExists [e, r] [] = [a] ∧
    ∀ n, eventLoop entries attrExists (List.replicate n e ++ [r]) [] =
      List.replicate n a := by
  have hrn : handleEvent entries attrExists r = none := by
    simp [handleEvent, hr]
  constructor
  · rw [eventLoop_go]
    simp [List.filterMap_cons, he, hrn]
  · intro n
    rw [eventLoop_go]
    simp [List.filterMap_append, List.filterMap_cons,
      filterMap_replicate_some _ e a he n, hrn]

/-- Witness for C8 (amended): one press of Ctrl+Shift+2 plus its release
yields one invocation; three repeat presses yield three. -/
theorem c8_press_edge_amended_witness :
    eventLoop (setup_hotkeys id HOTKEYS).entries (fun _ => true)
      [⟨2, 0x32, 5⟩, ⟨3, 0x32, 5⟩] [] = ["explain_text"] ∧
    eventLoop (setup_hotkeys id HOTKEYS).entries (fun _ => true)
      (List.replicate 3 ⟨2, 0x32, 5⟩ ++ [⟨3, 0x32, 5⟩]) [] =
      List.replicate 3 "explain_text" := by
  have h := c8_press_edge_amended (setup_hotkeys id HOTKEYS).entries (fun _ => true)
    ⟨2, 0x32, 5⟩ ⟨3, 0x32, 5⟩ "explain_text" (by decide) (by decide)
  exact ⟨h.1, h.2 3⟩

/-- Claim C9: when the clipboard holds an image, a file, or nothing, each of
the clipboard-based triggers (translate, explain, query-text) reports the
wrong-content condition via a notification and returns at once — no
confirmation dialog opens, so no pipeline run is created and no network
call can be issued. -/
theorem c9_wrong_clipboard_kind (clip : Clipboard)
    (h : (get_clipboard_text clip).2 ≠ "text") :
    translate_text clip = TriggerResult.notify (wrongKindMsg clip) ∧
    explain_text clip = TriggerResult.notify (wrongKindMsg clip) ∧
    query_text clip = TriggerResult.notify (wrongKindMsg clip) ∧
    startsRun (translate_text clip) = false ∧
    startsRun (explain_text clip) = false ∧
    startsRun (query_text clip) = false := by
  cases clip with
  | text s => exact absurd rfl h
  | image => exact ⟨by decide, by decide, by decide, by decide, by decide, by decide⟩
  | file => exact ⟨by decide, by decide, by decide, by decide, by decide, by decide⟩
  | empty => exact ⟨by decide, by decide, by decide, by decide, by decide, by decide⟩

/-- Witness for C9: an image-bearing clipboard aborts translate with the
image message; an empty clipboard aborts query-text with the generic
message. -/
theorem c9_wrong_clipboard_kind_witness :
    translate_text Clipboard.image =
      TriggerResult.notify "Clipboard contains an image, not text" ∧
    query_text Clipboard.empty =
      TriggerResult.notify "Clipboard does not contain text" ∧
    startsRun (explain_text Clipboard.file) = false := by
  refine ⟨?_, ?_, ?_⟩
  · exact ((c9_wrong_clipboard_kind Clipboard.image (by decide)).1).trans (by decide)
  · exact ((c9_wrong_clipboard_kind Clipboard.empty (by decide)).2.2.1).trans (by decide)
  · exact (c9_wrong_clipboard_kind Clipboard.file (by decide)).2.2.2.2.1
